import Mathlib

/-!
Formal model of the heuristic analysis pipeline of the repository analyzer
(git history classifier, feature extractor and estimator, developer profiler,
risk assessor, technology-stack deduplication).

Conventions of the shallow embedding:

* Python numbers (ints and floats) are modelled exactly: ints as `Int`, float
  arithmetic as exact rational arithmetic over `PRat`, a computable rational
  representation (integer numerator, positive integer denominator, not
  normalised).  Float literals in the modelled source are decimals, written
  with `PRat.ofTenths` / `PRat.ofHundredths`.
* Python's built-in `round(x, 1)` (banker's rounding to one decimal place) is
  `PRat.round1`.
* `datetime` values are modelled at day granularity as an integer day index
  (every use in the modelled code is day-based); day 0 is taken to be a
  Monday, so `weekday d = d % 7` and the `%Y-%W` week bucket of a date is
  identified with the Monday that starts its week.
* Python's stable `sorted` is modelled with `List.insertionSort` (stable and
  structurally recursive); the properties proved below depend only on
  sortedness and permutation, never on the order of ties.
* A Python runtime error (`TypeError`, `KeyError`) is modelled by `Option`:
  a function that can raise returns `none` on the raising input.
* String membership `needle in haystack` is `pyIn`; `str.lower()` is
  `pyLower` (character-wise `Char.toLower`, which is what CPython does for
  the ASCII commit-message patterns involved).
-/

/-- Computable rational numbers: integer numerator over a positive integer
denominator, not normalised.  Models CPython float/int arithmetic exactly
(the modelled heuristics only add, multiply, divide and compare decimals). -/
structure PRat where
  num : Int
  den : Int
  den_pos : 0 < den

instance : DecidableEq PRat := fun a b =>
  decidable_of_iff (a.num = b.num ∧ a.den = b.den)
    ⟨fun h => by
        cases a with
        | mk n d hp =>
          cases b with
          | mk n' d' hp' =>
            obtain ⟨h1, h2⟩ := h
            simp only at h1 h2
            subst h1; subst h2; rfl,
      fun h => ⟨congrArg PRat.num h, congrArg PRat.den h⟩⟩

/-- The integer `n` as a rational. -/
def PRat.ofInt (n : Int) : PRat := ⟨n, 1, Int.one_pos⟩

/-- The natural number `n` as a rational. -/
def PRat.ofNat (n : Nat) : PRat := ⟨(n : Int), 1, Int.one_pos⟩

/-- The decimal `n/10`; almost every float literal of the modelled source is
of this form (`0.7 = ofTenths 7`, `1.2 = ofTenths 12`, ...). -/
def PRat.ofTenths (n : Int) : PRat := ⟨n, 10, by omega⟩

/-- The decimal `n/100` (for the literals `0.15` and `0.05`). -/
def PRat.ofHundredths (n : Int) : PRat := ⟨n, 100, by omega⟩

def PRat.add (a b : PRat) : PRat :=
  ⟨a.num * b.den + b.num * a.den, a.den * b.den, Int.mul_pos a.den_pos b.den_pos⟩

def PRat.mul (a b : PRat) : PRat :=
  ⟨a.num * b.num, a.den * b.den, Int.mul_pos a.den_pos b.den_pos⟩

/-- Exact division.  Division by zero is never reached by the modelled code
(every division is guarded by an emptiness check); it is given the junk
value `0`. -/
def PRat.div (a b : PRat) : PRat :=
  if h : 0 < b.num then ⟨a.num * b.den, a.den * b.num, Int.mul_pos a.den_pos h⟩
  else if h2 : b.num < 0 then
    ⟨-(a.num * b.den), a.den * (-b.num), Int.mul_pos a.den_pos (by omega)⟩
  else PRat.ofInt 0

instance : LE PRat := ⟨fun a b => a.num * b.den ≤ b.num * a.den⟩

instance : LT PRat := ⟨fun a b => a.num * b.den < b.num * a.den⟩

instance (a b : PRat) : Decidable (a ≤ b) :=
  inferInstanceAs (Decidable (a.num * b.den ≤ b.num * a.den))

instance (a b : PRat) : Decidable (a < b) :=
  inferInstanceAs (Decidable (a.num * b.den < b.num * a.den))

/-- CPython `max(a, b)`: returns the first argument on ties. -/
def PRat.pyMax (a b : PRat) : PRat := if a < b then b else a

/-- CPython `min(a, b)`: returns the first argument on ties. -/
def PRat.pyMin (a b : PRat) : PRat := if b < a then b else a

/-- Banker's rounding of `10 * q` to the nearest integer (CPython
`round(q, 1)` yields this value divided by ten). -/
def PRat.roundTenEven (q : PRat) : Int :=
  let n := 10 * q.num
  let f := n.fdiv q.den
  let r := n - f * q.den
  if 2 * r < q.den then f
  else if q.den < 2 * r then f + 1
  else if f % 2 = 0 then f else f + 1

/-- CPython `round(q, 1)`: round half to even at the first decimal place. -/
def PRat.round1 (q : PRat) : PRat := ⟨PRat.roundTenEven q, 10, by omega⟩

/-- A Python runtime value as far as the modelled code needs: the
`weighted_sum` accumulator of `_calculate_knowledge_concentration` starts as
the int `0` and then has strings added to it. -/
inductive PyVal where
  | int (n : Int)
  | str (s : String)
deriving DecidableEq

/-- CPython `+`: int + int and str + str succeed, a mixed addition raises
`TypeError` (`none`). -/
def pyAdd : PyVal → PyVal → Option PyVal
  | PyVal.int a, PyVal.int b => some (PyVal.int (a + b))
  | PyVal.str a, PyVal.str b => some (PyVal.str (a ++ b))
  | _, _ => none

/-- CPython `int * str`: string repetition (empty for a non-positive count). -/
def pyMulIntStr (n : Int) (s : String) : PyVal :=
  PyVal.str (String.join (List.replicate n.toNat s))

/-- CPython `needle in haystack` on strings: substring containment. -/
def pyIn (needle haystack : String) : Bool :=
  decide (needle.data <:+: haystack.data)

/-- CPython `str.lower()` restricted to its ASCII behaviour, which is all the
modelled pattern tables exercise. -/
def pyLower (s : String) : String := String.mk (s.data.map Char.toLower)

/-- One commit record (git_analyzer.CommitInfo).  `date` is the day index of
the commit's timestamp. -/
structure CommitInfo where
  hash : String
  author : String
  author_email : String
  date : Int
  message : String
  files_changed : Int
  lines_added : Int
  lines_deleted : Int
  is_merge : Bool
  branch : String
deriving DecidableEq, Inhabited

/-- Default FEATURE_PATTERNS of GitAnalysisConfig. -/
def FEATURE_PATTERNS : List String :=
  ["feat:", "feature:", "add:", "implement:", "new:", "create:", "build:"]

/-- Default BUG_FIX_PATTERNS of GitAnalysisConfig. -/
def BUG_FIX_PATTERNS : List String :=
  ["fix:", "bugfix:", "bug:", "resolve:", "patch:", "correct:"]

/-- Default REFACTOR_PATTERNS of GitAnalysisConfig (the source lists
"refactor:" twice; containment tests make the duplicate irrelevant and it is
kept here). -/
def REFACTOR_PATTERNS : List String :=
  ["refactor:", "refactor:", "cleanup:", "restructure:", "optimize:"]

/-- Default DOCUMENTATION_PATTERNS of GitAnalysisConfig. -/
def DOCUMENTATION_PATTERNS : List String :=
  ["docs:", "documentation:", "readme:", "comment:", "update docs:"]

/-- Whether the lower-cased message contains any pattern of the table
(`any(pattern in message_lower for pattern in ...)`). -/
def matchesAny (patterns : List String) (message : String) : Bool :=
  patterns.any (fun p => pyIn p (pyLower message))

/-- The four exclusive commit categories of `_analyze_commit_patterns`, plus
the unclassified remainder. -/
inductive CommitClass where
  | feature
  | bugfix
  | refactor
  | docs
  | other
deriving DecidableEq

/-- The if/elif chain of `_analyze_commit_patterns`: feature patterns first,
then bug-fix, then refactor, then documentation; first match wins. -/
def classifyCommitMessage (message : String) : CommitClass :=
  if matchesAny FEATURE_PATTERNS message then CommitClass.feature
  else if matchesAny BUG_FIX_PATTERNS message then CommitClass.bugfix
  else if matchesAny REFACTOR_PATTERNS message then CommitClass.refactor
  else if matchesAny DOCUMENTATION_PATTERNS message then CommitClass.docs
  else CommitClass.other

/-- Commits the classifier leaves in none of the four category counters. -/
def unclassifiedCommits (commits : List CommitInfo) : Nat :=
  commits.countP (fun c => classifyCommitMessage c.message == CommitClass.other)

/-- Python `date.weekday()` with day 0 a Monday. -/
def pyWeekday (d : Int) : Int := d.emod 7

/-- The `%Y-%W` week bucket of `_analyze_commit_frequency_trend`, identified
with the Monday day-index that starts the week
(`commit.date - timedelta(days=commit.date.weekday())`). -/
def weekKey (d : Int) : Int := d - pyWeekday d

/-- The ascending relation used to model Python `sorted` on week keys. -/
def intLe (a b : Int) : Prop := a ≤ b

instance : DecidableRel intLe := fun a b => Int.decLe a b

instance : IsTotal Int intLe := ⟨Int.le_total⟩

instance : IsTrans Int intLe := ⟨fun _ _ _ => Int.le_trans⟩

/-- `_analyze_commit_frequency_trend`: bucket commits into weeks, compare the
total of the first `len // 3` weeks with the total of the last
`ceil(len / 3)` weeks (`weeks[-len(weeks)//3:]`). -/
def analyze_commit_frequency_trend (commits : List CommitInfo) : String :=
  if commits.length < 10 then "insufficient_data"
  else
    let weekKeys := (commits.map (fun c => weekKey c.date)).dedup
    if weekKeys.length < 3 then "insufficient_data"
    else
      let weeks := List.insertionSort intLe weekKeys
      let weekCount := fun (w : Int) => commits.countP (fun c => weekKey c.date == w)
      let early := ((weeks.take (weeks.length / 3)).map weekCount).sum
      let late := ((weeks.drop (weeks.length - (weeks.length + 2) / 3)).map weekCount).sum
      if PRat.mul (PRat.ofNat early) (PRat.ofTenths 12) < PRat.ofNat late then "increasing"
      else if PRat.ofNat late < PRat.mul (PRat.ofNat early) (PRat.ofTenths 8) then "decreasing"
      else "stable"

/-- Aggregate commit-pattern statistics (git_analyzer.CommitPattern).  The
`most_active_days` and `commit_message_quality` fields of the source are not
modelled: no verified property below mentions them. -/
structure CommitPattern where
  total_commits : Nat
  feature_commits : Nat
  bug_fix_commits : Nat
  refactor_commits : Nat
  documentation_commits : Nat
  merge_commits : Nat
  average_commits_per_day : PRat
  commit_frequency_trend : String
deriving DecidableEq

/-- `_analyze_commit_patterns`: the empty commit list short-circuits to an
all-zero pattern whose trend is the literal "unknown"; otherwise the four
counters are filled by the first-match classifier and the trend by
`_analyze_commit_frequency_trend`. -/
def analyze_commit_patterns (commits : List CommitInfo) : CommitPattern :=
  if commits.isEmpty then
    { total_commits := 0
      feature_commits := 0
      bug_fix_commits := 0
      refactor_commits := 0
      documentation_commits := 0
      merge_commits := 0
      average_commits_per_day := PRat.ofInt 0
      commit_frequency_trend := "unknown" }
  else
    let firstDate := (commits.map (fun c => c.date)).foldl min (commits.headI.date)
    let lastDate := (commits.map (fun c => c.date)).foldl max (commits.headI.date)
    let totalDays := lastDate - firstDate + 1
    { total_commits := commits.length
      feature_commits :=
        commits.countP (fun c => classifyCommitMessage c.message == CommitClass.feature)
      bug_fix_commits :=
        commits.countP (fun c => classifyCommitMessage c.message == CommitClass.bugfix)
      refactor_commits :=
        commits.countP (fun c => classifyCommitMessage c.message == CommitClass.refactor)
      documentation_commits :=
        commits.countP (fun c => classifyCommitMessage c.message == CommitClass.docs)
      merge_commits := commits.countP (fun c => c.is_merge)
      average_commits_per_day :=
        PRat.div (PRat.ofNat commits.length) (PRat.ofInt (max totalDays 1))
      commit_frequency_trend := analyze_commit_frequency_trend commits }

/-- config.ComplexityThresholds (LOC and commit-count cutoffs, time-estimate
multipliers, estimate buffers). -/
structure ComplexityThresholds where
  LOW_COMPLEXITY_LOC : Int
  MEDIUM_COMPLEXITY_LOC : Int
  LOW_COMPLEXITY_COMMITS : Int
  MEDIUM_COMPLEXITY_COMMITS : Int
  LOW_COMPLEXITY_MULTIPLIER : PRat
  MEDIUM_COMPLEXITY_MULTIPLIER : PRat
  HIGH_COMPLEXITY_MULTIPLIER : PRat
  TESTING_BUFFER : PRat
  DOCUMENTATION_BUFFER : PRat
  TOTAL_BUFFER : PRat
deriving DecidableEq

/-- The dataclass defaults of config.ComplexityThresholds (the only values an
analysis run ever uses: `_load_config` is an unimplemented placeholder). -/
def defaultThresholds : ComplexityThresholds :=
  { LOW_COMPLEXITY_LOC := 100
    MEDIUM_COMPLEXITY_LOC := 500
    LOW_COMPLEXITY_COMMITS := 3
    MEDIUM_COMPLEXITY_COMMITS := 8
    LOW_COMPLEXITY_MULTIPLIER := PRat.ofTenths 15
    MEDIUM_COMPLEXITY_MULTIPLIER := PRat.ofTenths 30
    HIGH_COMPLEXITY_MULTIPLIER := PRat.ofTenths 60
    TESTING_BUFFER := PRat.ofHundredths 15
    DOCUMENTATION_BUFFER := PRat.ofHundredths 5
    TOTAL_BUFFER := PRat.ofTenths 2 }

/-- AnalysisConfig.get_complexity_level: 'low' when both the LOC and the
commit count are at or under the low cutoffs, else 'medium' when both are at
or under the medium cutoffs, else 'high'. -/
def get_complexity_level (cfg : ComplexityThresholds) (loc commitCount : Int) : String :=
  if loc ≤ cfg.LOW_COMPLEXITY_LOC ∧ commitCount ≤ cfg.LOW_COMPLEXITY_COMMITS then "low"
  else if loc ≤ cfg.MEDIUM_COMPLEXITY_LOC ∧ commitCount ≤ cfg.MEDIUM_COMPLEXITY_COMMITS then
    "medium"
  else "high"

/-- AnalysisConfig.get_time_estimate: per-complexity hourly multiplier
(`multipliers.get(complexity, 3.0)`) times the commit count, times
`1 + TOTAL_BUFFER`, rounded to one decimal. -/
def get_time_estimate (cfg : ComplexityThresholds) (complexity : String)
    (commitCount : Int) : PRat :=
  let multiplier :=
    if complexity == "low" then cfg.LOW_COMPLEXITY_MULTIPLIER
    else if complexity == "medium" then cfg.MEDIUM_COMPLEXITY_MULTIPLIER
    else if complexity == "high" then cfg.HIGH_COMPLEXITY_MULTIPLIER
    else PRat.ofTenths 30
  let baseHours := PRat.mul multiplier (PRat.ofInt commitCount)
  let totalHours := PRat.mul baseHours (PRat.add (PRat.ofInt 1) cfg.TOTAL_BUFFER)
  PRat.round1 totalHours

/-- feature_mapper.Feature.  Dates are day indexes; `dependencies` and `tags`
default to the empty list exactly as `__post_init__` does for `None`. -/
structure Feature where
  name : String
  description : String
  complexity : String
  status : String
  estimated_hours : PRat
  actual_hours : Option PRat
  commit_count : Int
  lines_of_code : Int
  business_value : String
  priority : String
  risk_level : String
  confidence : PRat
  start_date : Option Int
  end_date : Option Int
  dependencies : List String
  tags : List String
deriving DecidableEq

/-- FeatureMapper.assess_complexity: the configured base level, escalated one
step when there are more than three dependencies, and escalated one step when
`risk_level == 'high'` (note the lower-case literal in the source). -/
def assess_complexity (cfg : ComplexityThresholds) (feature : Feature) : String :=
  let complexity := get_complexity_level cfg feature.lines_of_code feature.commit_count
  let complexity :=
    if ¬feature.dependencies.isEmpty ∧ feature.dependencies.length > 3 then
      if complexity == "low" then "medium"
      else if complexity == "medium" then "high"
      else complexity
    else complexity
  if feature.risk_level == "high" then
    if complexity == "low" then "medium"
    else if complexity == "medium" then "high"
    else complexity
  else complexity

/-- FeatureMapper.estimate_development_time: configured base hours times the
accumulated adjustment factors (business value, risk level, dependency
count), rounded to one decimal. -/
def estimate_development_time (cfg : ComplexityThresholds) (feature : Feature) : PRat :=
  let baseHours := get_time_estimate cfg feature.complexity feature.commit_count
  let adjustments := PRat.ofInt 1
  let adjustments :=
    if feature.business_value == "Critical" then PRat.mul adjustments (PRat.ofTenths 12)
    else if feature.business_value == "Minimal" then PRat.mul adjustments (PRat.ofTenths 8)
    else adjustments
  let adjustments :=
    if feature.risk_level == "High" then PRat.mul adjustments (PRat.ofTenths 13)
    else if feature.risk_level == "Low" then PRat.mul adjustments (PRat.ofTenths 9)
    else adjustments
  let adjustments :=
    if feature.dependencies.isEmpty then adjustments
    else
      PRat.mul adjustments
        (PRat.add (PRat.ofInt 1)
          (PRat.mul (PRat.ofNat feature.dependencies.length) (PRat.ofTenths 1)))
  PRat.round1 (PRat.mul baseHours adjustments)

/-- The merged per-candidate dictionary built by `_extract_features_from_commits`,
`_extract_features_from_structure` and `_merge_features` (keys: commits,
lines_changed, start_date, end_date, tags).  The extraction and merge steps
only decide which candidates exist; every Feature is then built from one such
record by `_create_feature_object`, so the candidates are the model's input. -/
structure FeatureData where
  commits : List CommitInfo
  lines_changed : Int
  start_date : Option Int
  end_date : Option Int
  tags : List String
deriving DecidableEq

/-- FeatureMapper._determine_feature_status. -/
def determine_feature_status (d : FeatureData) : String :=
  if d.end_date.isSome then "completed"
  else if d.start_date.isSome then "in_progress"
  else "planned"

/-- FeatureMapper._determine_business_value (keyword match on the feature
name; the fall-through default is also 'Medium'). -/
def determine_business_value (featureName : String) : String :=
  let nameLower := pyLower featureName
  if ["auth", "payment", "user", "core", "main", "critical"].any
      (fun k => pyIn k nameLower) then "High"
  else if ["api", "service", "component", "feature"].any (fun k => pyIn k nameLower) then
    "Medium"
  else "Medium"

/-- FeatureMapper._determine_priority (mirrors the business value). -/
def determine_priority (featureName : String) : String :=
  let businessValue := determine_business_value featureName
  if businessValue == "High" then "High"
  else if businessValue == "Medium" then "Medium"
  else "Low"

/-- FeatureMapper._determine_risk_level.  The candidate dictionaries never
carry a 'dependencies' key, so `feature_data.get('dependencies', [])` is
always the empty list. -/
def determine_risk_level (d : FeatureData) : String :=
  let dependencies : List String := []
  if d.lines_changed > 1000 then "High"
  else if dependencies.length > 5 then "High"
  else if d.lines_changed > 500 then "Medium"
  else if dependencies.length > 2 then "Medium"
  else "Low"

/-- FeatureMapper._calculate_feature_confidence. -/
def calculate_feature_confidence (d : FeatureData) : PRat :=
  let confidence := PRat.ofTenths 5
  let confidence :=
    if d.commits.isEmpty then confidence else PRat.add confidence (PRat.ofTenths 2)
  let confidence :=
    if d.start_date.isSome ∧ d.end_date.isSome then PRat.add confidence (PRat.ofTenths 1)
    else confidence
  let confidence :=
    if d.lines_changed > 0 then PRat.add confidence (PRat.ofTenths 1) else confidence
  let confidence :=
    if d.tags.isEmpty then confidence else PRat.add confidence (PRat.ofTenths 1)
  PRat.pyMin confidence (PRat.ofInt 1)

/-- FeatureMapper._generate_feature_description. -/
def generate_feature_description (featureName : String) (d : FeatureData) : String :=
  let part1 :=
    if ¬d.tags.isEmpty then
      if d.tags.contains "feature" then "Feature implementation"
      else if d.tags.contains "bugfix" then "Bug fix"
      else if d.tags.contains "refactor" then "Code refactoring"
      else "Development work"
    else "Development work"
  let parts :=
    if d.lines_changed > 0 then
      [part1, "affecting " ++ toString d.lines_changed ++ " lines of code"]
    else [part1]
  let parts :=
    if ¬d.commits.isEmpty then
      parts ++ ["with " ++ toString d.commits.length ++ " commits"]
    else parts
  String.intercalate " " parts

/-- FeatureMapper._extract_dependencies (from tag presence). -/
def extract_dependencies (d : FeatureData) : List String :=
  (if d.tags.contains "api" then ["Backend API"] else []) ++
  (if d.tags.contains "database" then ["Database"] else []) ++
  (if d.tags.contains "ui" then ["UI Components"] else [])

/-- FeatureMapper._create_feature_object: build the Feature with placeholder
complexity 'medium' and hours 0.0, then overwrite complexity with
`assess_complexity` and hours with `estimate_development_time` (in that
order, as the source does after construction). -/
def create_feature_object (cfg : ComplexityThresholds) (featureName : String)
    (d : FeatureData) : Feature :=
  let feature : Feature :=
    { name := featureName
      description := generate_feature_description featureName d
      complexity := "medium"
      status := determine_feature_status d
      estimated_hours := PRat.ofInt 0
      actual_hours := none
      commit_count := (d.commits.length : Int)
      lines_of_code := d.lines_changed
      business_value := determine_business_value featureName
      priority := determine_priority featureName
      risk_level := determine_risk_level d
      confidence := calculate_feature_confidence d
      start_date := d.start_date
      end_date := d.end_date
      dependencies := extract_dependencies d
      tags := d.tags }
  let feature := { feature with complexity := assess_complexity cfg feature }
  { feature with estimated_hours := estimate_development_time cfg feature }

/-- Descending order on estimated hours (`sorted(..., key=lambda x:
x.estimated_hours, reverse=True)`). -/
def hoursGe (a b : Feature) : Prop := b.estimated_hours ≤ a.estimated_hours

instance : DecidableRel hoursGe := fun a b =>
  inferInstanceAs (Decidable (b.estimated_hours ≤ a.estimated_hours))

instance : IsTotal Feature hoursGe :=
  ⟨fun a b => Or.symm (Int.le_total (a.estimated_hours.num * b.estimated_hours.den) (b.estimated_hours.num * a.estimated_hours.den))⟩

instance : IsTrans Feature hoursGe :=
  ⟨fun a b c h1 h2 => by
    have h1' : b.estimated_hours.num * a.estimated_hours.den ≤ a.estimated_hours.num * b.estimated_hours.den := h1
    have h2' : c.estimated_hours.num * b.estimated_hours.den ≤ b.estimated_hours.num * c.estimated_hours.den := h2
    show c.estimated_hours.num * a.estimated_hours.den ≤ a.estimated_hours.num * c.estimated_hours.den
    nlinarith [a.estimated_hours.den_pos, b.estimated_hours.den_pos, c.estimated_hours.den_pos,
      mul_le_mul_of_nonneg_right h2' a.estimated_hours.den_pos.le,
      mul_le_mul_of_nonneg_right h1' c.estimated_hours.den_pos.le]⟩

/-- FeatureMapper.identify_features over the merged candidate records: one
Feature per candidate, sorted by descending estimated hours. -/
def identify_features (cfg : ComplexityThresholds)
    (candidates : List (String × FeatureData)) : List Feature :=
  List.insertionSort hoursGe
    (candidates.map (fun c => create_feature_object cfg c.1 c.2))

/-- FeatureMapper._determine_feature_group (keyword match on the feature
name). -/
def determine_feature_group (feature : Feature) : String :=
  let nameLower := pyLower feature.name
  if ["ui", "component", "page", "screen", "view"].any (fun k => pyIn k nameLower) then
    "User Interface"
  else if ["api", "service", "controller", "model"].any (fun k => pyIn k nameLower) then
    "Backend Services"
  else if ["config", "setup", "deploy", "docker"].any (fun k => pyIn k nameLower) then
    "Infrastructure"
  else if ["database", "data", "storage", "cache"].any (fun k => pyIn k nameLower) then
    "Data Management"
  else "Core Features"

/-- The dict literal `{'low': 1, 'medium': 2, 'high': 3}` of
`group_features`; an absent key is a `KeyError` (`none`). -/
def complexity_scores (s : String) : Option Nat :=
  if s == "low" then some 1
  else if s == "medium" then some 2
  else if s == "high" then some 3
  else none

/-- The dict literal of `_determine_group_business_impact`
(`impact_scores.get(f.business_value, 3)`: total, defaulted lookup). -/
def impact_score (s : String) : Nat :=
  if s == "Critical" then 5
  else if s == "High" then 4
  else if s == "Medium" then 3
  else if s == "Low" then 2
  else if s == "Minimal" then 1
  else 3

/-- FeatureMapper._determine_group_business_impact. -/
def determine_group_business_impact (features : List Feature) : String :=
  if features.isEmpty then "Low"
  else
    let totalScore := (features.map (fun f => impact_score f.business_value)).sum
    let averageScore := PRat.div (PRat.ofNat totalScore) (PRat.ofNat features.length)
    if PRat.ofTenths 45 ≤ averageScore then "Critical"
    else if PRat.ofTenths 35 ≤ averageScore then "High"
    else if PRat.ofTenths 25 ≤ averageScore then "Medium"
    else if PRat.ofTenths 15 ≤ averageScore then "Low"
    else "Minimal"

/-- A group of related features (feature_mapper.FeatureGroup). -/
structure FeatureGroup where
  name : String
  features : List Feature
  total_hours : PRat
  average_complexity : String
  business_impact : String
deriving DecidableEq

/-- Key order of a Python dict: first occurrence wins. -/
def firstDedup (l : List String) : List String :=
  l.foldl (fun acc x => if acc.contains x then acc else acc ++ [x]) []

/-- Sequencing of Python exceptions over a loop: the whole computation raises
as soon as one element raises. -/
def seqOption : List (Option α) → Option (List α)
  | [] => some []
  | none :: _ => none
  | some x :: rest => (seqOption rest).map (fun l => x :: l)

/-- Sum of a list of rationals (`sum(...)` over floats). -/
def sumPRat (l : List PRat) : PRat := l.foldl PRat.add (PRat.ofInt 0)

/-- Descending order on group total hours. -/
def groupHoursGe (a b : FeatureGroup) : Prop := b.total_hours ≤ a.total_hours

instance : DecidableRel groupHoursGe := fun a b =>
  inferInstanceAs (Decidable (b.total_hours ≤ a.total_hours))

instance : IsTotal FeatureGroup groupHoursGe :=
  ⟨fun a b => Or.symm (Int.le_total (a.total_hours.num * b.total_hours.den) (b.total_hours.num * a.total_hours.den))⟩

instance : IsTrans FeatureGroup groupHoursGe :=
  ⟨fun a b c h1 h2 => by
    have h1' : b.total_hours.num * a.total_hours.den ≤ a.total_hours.num * b.total_hours.den := h1
    have h2' : c.total_hours.num * b.total_hours.den ≤ b.total_hours.num * c.total_hours.den := h2
    show c.total_hours.num * a.total_hours.den ≤ a.total_hours.num * c.total_hours.den
    nlinarith [a.total_hours.den_pos, b.total_hours.den_pos, c.total_hours.den_pos,
      mul_le_mul_of_nonneg_right h2' a.total_hours.den_pos.le,
      mul_le_mul_of_nonneg_right h1' c.total_hours.den_pos.le]⟩

/-- The per-group body of `group_features`: the group's feature bucket, its
total hours, the averaged complexity-score lookup (a `KeyError` for an
unexpected complexity string raises: `none`) and the group business
impact. -/
def buildFeatureGroup (features : List Feature) (gname : String) : Option FeatureGroup :=
  let groupFeatures := features.filter (fun f => determine_feature_group f == gname)
  match seqOption (groupFeatures.map (fun f => complexity_scores f.complexity)) with
  | none => none
  | some scores =>
    let avgScore := PRat.div (PRat.ofNat scores.sum) (PRat.ofNat groupFeatures.length)
    let avgComplexity :=
      if avgScore ≤ PRat.ofTenths 15 then "low"
      else if avgScore ≤ PRat.ofTenths 25 then "medium"
      else "high"
    some
      { name := gname
        features := groupFeatures
        total_hours := sumPRat (groupFeatures.map (fun f => f.estimated_hours))
        average_complexity := avgComplexity
        business_impact := determine_group_business_impact groupFeatures }

/-- FeatureMapper.group_features: bucket features into named groups (dict in
first-insertion order), build each group, and sort groups by descending
total hours; a `KeyError` inside any group raises for the whole call. -/
def group_features (features : List Feature) : Option (List FeatureGroup) :=
  let groupNames := firstDedup (features.map determine_feature_group)
  match seqOption (groupNames.map (buildFeatureGroup features)) with
  | none => none
  | some groups => some (List.insertionSort groupHoursGe groups)

/-- The five business-value tiers `_assess_business_value` can assign to a
developer (the dataclass documents exactly these labels; the weight tables of
`_calculate_bus_factor` and `_calculate_knowledge_concentration` key on
them). -/
inductive BusinessValue where
  | Critical
  | High
  | Medium
  | Low
  | Minimal
deriving DecidableEq

/-- The literal weight dict `{'Critical': 5, 'High': 4, 'Medium': 3,
'Low': 2, 'Minimal': 1}`. -/
def businessValueWeight : BusinessValue → Int
  | BusinessValue.Critical => 5
  | BusinessValue.High => 4
  | BusinessValue.Medium => 3
  | BusinessValue.Low => 2
  | BusinessValue.Minimal => 1

/-- developer_analyzer.DeveloperProfile restricted to the fields the
team-dynamics computations read (name, business value, contribution
pattern); the remaining profile fields never enter `analyze_team_dynamics`
or its helpers. -/
structure DeveloperProfile where
  name : String
  email : String
  business_value : BusinessValue
  contribution_pattern : String
deriving DecidableEq

/-- developer_analyzer.TeamDynamics. -/
structure TeamDynamics where
  team_size : Nat
  collaboration_model : String
  knowledge_distribution : String
  bus_factor : Nat
  primary_contributors : List String
  secondary_contributors : List String
  knowledge_concentration : PRat
  team_stability : String
  communication_patterns : List String
deriving DecidableEq

/-- Whether a profile counts as a primary contributor
(`business_value in ['Critical', 'High']`). -/
def isPrimary (p : DeveloperProfile) : Bool :=
  p.business_value == BusinessValue.Critical || p.business_value == BusinessValue.High

/-- DeveloperAnalyzer._determine_collaboration_model. -/
def determine_collaboration_model (profiles : List DeveloperProfile) : String :=
  if profiles.isEmpty then "Unknown"
  else
    let primary := profiles.filter isPrimary
    let secondary := profiles.filter (fun p =>
      p.business_value == BusinessValue.Medium || p.business_value == BusinessValue.Low)
    if primary.length = 1 ∧ secondary.length ≤ 2 then "Single Lead with Support"
    else if primary.length ≤ 2 ∧ secondary.length ≥ 3 then
      "Small Core Team with Extended Support"
    else if primary.length ≥ 3 then "Collaborative Team"
    else "Distributed Team"

/-- DeveloperAnalyzer._analyze_knowledge_distribution. -/
def analyze_knowledge_distribution (profiles : List DeveloperProfile) : String :=
  if profiles.isEmpty then "Unknown"
  else
    let concentration :=
      PRat.div (PRat.ofNat (profiles.filter isPrimary).length)
        (PRat.ofNat profiles.length)
    if concentration ≤ PRat.ofTenths 3 then "Well Distributed"
    else if concentration ≤ PRat.ofTenths 5 then "Moderately Distributed"
    else "Highly Concentrated"

/-- Descending order on business-value weight (`sorted(..., key=weight,
reverse=True)` in `_calculate_bus_factor`). -/
def weightGe (a b : DeveloperProfile) : Prop :=
  businessValueWeight b.business_value ≤ businessValueWeight a.business_value

instance : DecidableRel weightGe := fun a b =>
  inferInstanceAs
    (Decidable (businessValueWeight b.business_value ≤ businessValueWeight a.business_value))

instance : IsTotal DeveloperProfile weightGe :=
  ⟨fun a b =>
    Or.symm
      (Int.le_total (businessValueWeight a.business_value)
        (businessValueWeight b.business_value))⟩

instance : IsTrans DeveloperProfile weightGe := ⟨fun _ _ _ h1 h2 => Int.le_trans h2 h1⟩

/-- The accumulation loop of `_calculate_bus_factor`: walk the sorted
profiles counting heads and stop as soon as the count reaches 70% of the
team size (`bus_factor >= total_contributors * 0.7`). -/
def busFactorLoop (total : Nat) : List DeveloperProfile → Nat → Nat
  | [], busFactor => busFactor
  | _ :: rest, busFactor =>
    let busFactor := busFactor + 1
    if PRat.mul (PRat.ofNat total) (PRat.ofTenths 7) ≤ PRat.ofNat busFactor then busFactor
    else busFactorLoop total rest busFactor

/-- DeveloperAnalyzer._calculate_bus_factor. -/
def calculate_bus_factor (profiles : List DeveloperProfile) : Nat :=
  if profiles.isEmpty then 0
  else busFactorLoop profiles.length (List.insertionSort weightGe profiles) 0

/-- DeveloperAnalyzer._categorize_contributors. -/
def categorize_contributors (profiles : List DeveloperProfile) :
    List String × List String :=
  ((profiles.filter isPrimary).map (fun p => p.name),
    (profiles.filter (fun p =>
      p.business_value == BusinessValue.Medium || p.business_value == BusinessValue.Low
        || p.business_value == BusinessValue.Minimal)).map (fun p => p.name))

/-- The loop body of `_calculate_knowledge_concentration`: one iteration of
`total_weight += weight; weighted_sum += weight * profile.contribution_pattern`
over the accumulator pair (weighted_sum, total_weight). -/
def knowledgeConcentrationStep (acc : Option PyVal × Int) (p : DeveloperProfile) :
    Option PyVal × Int :=
  (acc.1.bind (fun v =>
      pyAdd v (pyMulIntStr (businessValueWeight p.business_value)
        p.contribution_pattern)),
    acc.2 + businessValueWeight p.business_value)

/-- DeveloperAnalyzer._calculate_knowledge_concentration.  The loop executes
`weighted_sum += weight * profile.contribution_pattern`: `weighted_sum`
starts as the int 0 while `weight * profile.contribution_pattern` is a
string (int-times-str repetition), so the first iteration raises a
`TypeError` — `none` — for every non-empty profile list. -/
def calculate_knowledge_concentration (profiles : List DeveloperProfile) : Option PRat :=
  if profiles.isEmpty then some (PRat.ofInt 0)
  else
    let acc := profiles.foldl knowledgeConcentrationStep (some (PyVal.int 0), 0)
    acc.1.bind (fun v =>
      if 0 < acc.2 then
        match v with
        | PyVal.int n => some (PRat.div (PRat.ofInt n) (PRat.ofInt acc.2))
        | PyVal.str _ => none
      else some (PRat.ofInt 0))

/-- DeveloperAnalyzer._assess_team_stability (`now` is the day index of
`datetime.now()`; `recent_cutoff = now - 30 days`). -/
def assess_team_stability (now : Int) (profiles : List DeveloperProfile)
    (commits : List CommitInfo) : String :=
  if profiles.isEmpty ∨ commits.isEmpty then "Unknown"
  else
    let recentCommits := commits.filter (fun c => c.date > now - 30)
    if recentCommits.isEmpty then "Inactive"
    else
      let recentAuthors := (recentCommits.map (fun c => c.author)).dedup
      let activeRatio :=
        PRat.div (PRat.ofNat recentAuthors.length) (PRat.ofNat profiles.length)
      if PRat.ofTenths 8 ≤ activeRatio then "Very Stable"
      else if PRat.ofTenths 6 ≤ activeRatio then "Stable"
      else if PRat.ofTenths 4 ≤ activeRatio then "Moderately Stable"
      else "Unstable"

/-- DeveloperAnalyzer._analyze_communication_patterns. -/
def analyze_communication_patterns (commits : List CommitInfo) : List String :=
  if commits.isEmpty then []
  else
    let avgMessageLength :=
      PRat.div (PRat.ofNat ((commits.map (fun c => c.message.length)).sum))
        (PRat.ofNat commits.length)
    let lengthLabel :=
      if PRat.ofInt 50 ≤ avgMessageLength then "Detailed Communication"
      else if PRat.ofInt 20 ≤ avgMessageLength then "Standard Communication"
      else "Minimal Communication"
    let conventionalCount := commits.countP (fun c =>
      ["feat:", "fix:", "docs:", "refactor:"].any
        (fun p => pyIn p (pyLower c.message)))
    let conventionalRatio :=
      PRat.div (PRat.ofNat conventionalCount) (PRat.ofNat commits.length)
    let styleLabel :=
      if PRat.ofTenths 7 ≤ conventionalRatio then "Structured Commit Messages"
      else if PRat.ofTenths 4 ≤ conventionalRatio then "Mixed Commit Styles"
      else "Informal Commit Messages"
    [lengthLabel, styleLabel]

/-- DeveloperAnalyzer.analyze_team_dynamics.  The knowledge-concentration
step can raise (see `calculate_knowledge_concentration`), in which case the
whole call raises: `none`. -/
def analyze_team_dynamics (now : Int) (profiles : List DeveloperProfile)
    (commits : List CommitInfo) : Option TeamDynamics :=
  (calculate_knowledge_concentration profiles).map (fun kc =>
    { team_size := profiles.length
      collaboration_model := determine_collaboration_model profiles
      knowledge_distribution := analyze_knowledge_distribution profiles
      bus_factor := calculate_bus_factor profiles
      primary_contributors := (categorize_contributors profiles).1
      secondary_contributors := (categorize_contributors profiles).2
      knowledge_concentration := kc
      team_stability := assess_team_stability now profiles commits
      communication_patterns := analyze_communication_patterns commits })

/-- repo_analyzer.TechnologyInfo. -/
structure TechnologyInfo where
  name : String
  category : String
  confidence : PRat
  evidence : List String
  version : Option String
deriving DecidableEq

/-- The merge `_deduplicate_technologies` performs on a key collision:
evidence lists concatenated in encounter order, confidence takes the
maximum. -/
def mergeTech (existing tech : TechnologyInfo) : TechnologyInfo :=
  { existing with
    evidence := existing.evidence ++ tech.evidence
    confidence := PRat.pyMax existing.confidence tech.confidence }

/-- One step of the dict accumulation of `_deduplicate_technologies`: update
the (unique, hence first) entry with the same `(name, category)` key, or
append the entry (dicts preserve insertion order). -/
def updateTech : List TechnologyInfo → TechnologyInfo → List TechnologyInfo
  | [], tech => [tech]
  | e :: rest, tech =>
    if e.name == tech.name && e.category == tech.category then mergeTech e tech :: rest
    else e :: updateTech rest tech

/-- RepoAnalyzer._deduplicate_technologies. -/
def deduplicate_technologies (techList : List TechnologyInfo) : List TechnologyInfo :=
  techList.foldl updateTech []

/-- Descending order on confidence (`sorted(..., key=lambda x: x.confidence,
reverse=True)`). -/
def confGe (a b : TechnologyInfo) : Prop := b.confidence ≤ a.confidence

instance : DecidableRel confGe := fun a b =>
  inferInstanceAs (Decidable (b.confidence ≤ a.confidence))

instance : IsTotal TechnologyInfo confGe :=
  ⟨fun a b => Or.symm (Int.le_total (a.confidence.num * b.confidence.den) (b.confidence.num * a.confidence.den))⟩

instance : IsTrans TechnologyInfo confGe :=
  ⟨fun a b c h1 h2 => by
    have h1' : b.confidence.num * a.confidence.den ≤ a.confidence.num * b.confidence.den := h1
    have h2' : c.confidence.num * b.confidence.den ≤ b.confidence.num * c.confidence.den := h2
    show c.confidence.num * a.confidence.den ≤ a.confidence.num * c.confidence.den
    nlinarith [a.confidence.den_pos, b.confidence.den_pos, c.confidence.den_pos,
      mul_le_mul_of_nonneg_right h2' a.confidence.den_pos.le,
      mul_le_mul_of_nonneg_right h1' c.confidence.den_pos.le]⟩

/-- RepoAnalyzer._identify_technology_stack over the outputs of the three
analysis passes (config files, source extensions, build files — each an
external file-system inspection supplying a list of entries): concatenate,
deduplicate, sort by descending confidence. -/
def identify_technology_stack (configTech sourceTech buildTech : List TechnologyInfo) :
    List TechnologyInfo :=
  List.insertionSort confGe
    (deduplicate_technologies (configTech ++ sourceTech ++ buildTech))

/-- risk_assessor.Risk (`detection_date` is the day index of
`datetime.now()`). -/
structure Risk where
  id : String
  name : String
  category : String
  probability : String
  impact : String
  business_impact : String
  description : String
  mitigation_strategy : String
  risk_score : PRat
  detection_date : Int
  status : String
deriving DecidableEq

/-- RiskAssessor._assess_scope_creep: a constant placeholder, 0.0 when either
input is empty, 0.3 otherwise. -/
def assess_scope_creep (features : List Feature) (commits : List CommitInfo) : PRat :=
  if features.isEmpty ∨ commits.isEmpty then PRat.ofInt 0 else PRat.ofTenths 3

/-- RiskAssessor._assess_timeline_risks. -/
def assess_timeline_risks (features : List Feature) (commits : List CommitInfo) : PRat :=
  if features.isEmpty then PRat.ofInt 0
  else
    let highComplexity := features.filter (fun f => f.complexity == "high")
    let complexityRisk :=
      PRat.div (PRat.ofNat highComplexity.length) (PRat.ofNat features.length)
    let additionalRisk := PRat.ofInt 0
    let additionalRisk :=
      if (features.filter (fun f => f.risk_level == "High")).isEmpty then additionalRisk
      else PRat.add additionalRisk (PRat.ofTenths 2)
    let additionalRisk :=
      if (features.filter (fun f => ¬f.dependencies.isEmpty)).isEmpty then additionalRisk
      else PRat.add additionalRisk (PRat.ofTenths 1)
    PRat.pyMin (PRat.add complexityRisk additionalRisk) (PRat.ofInt 1)

/-- RiskAssessor._assess_resource_constraints: a constant placeholder, 0.0
when either input is empty, 0.4 otherwise. -/
def assess_resource_constraints (commits : List CommitInfo) (features : List Feature) :
    PRat :=
  if commits.isEmpty ∨ features.isEmpty then PRat.ofInt 0 else PRat.ofTenths 4

/-- RiskAssessor._identify_business_risks: a Scope Creep risk (BUS_001) when
the scope-creep score exceeds 0.6, a Timeline risk (BUS_002) when the
timeline score exceeds 0.7, a Resource Constraints risk (BUS_003) when the
resource score exceeds 0.6. -/
def identify_business_risks (now : Int) (features : List Feature)
    (commits : List CommitInfo) : List Risk :=
  let scopeCreepScore := assess_scope_creep features commits
  let risks : List Risk :=
    if PRat.ofTenths 6 < scopeCreepScore then
      [{ id := "BUS_001"
         name := "Scope Creep"
         category := "business"
         probability := "medium"
         impact := "high"
         business_impact := "Delayed delivery and increased costs"
         description := "Project shows signs of scope creep with expanding feature set"
         mitigation_strategy :=
           "Strict change control, regular scope reviews, stakeholder alignment"
         risk_score := scopeCreepScore
         detection_date := now
         status := "identified" }]
    else []
  let timelineRisk := assess_timeline_risks features commits
  let risks :=
    if PRat.ofTenths 7 < timelineRisk then
      risks ++
        [{ id := "BUS_002"
           name := "Timeline Risks"
           category := "business"
           probability := "high"
           impact := "high"
           business_impact := "Missed deadlines and stakeholder dissatisfaction"
           description := "Project timeline shows significant risks of delays"
           mitigation_strategy :=
             "Resource reallocation, scope reduction, stakeholder communication"
           risk_score := timelineRisk
           detection_date := now
           status := "identified" }]
    else risks
  let resourceRisk := assess_resource_constraints commits features
  if PRat.ofTenths 6 < resourceRisk then
    risks ++
      [{ id := "BUS_003"
         name := "Resource Constraints"
         category := "business"
         probability := "medium"
         impact := "medium"
         business_impact := "Reduced development velocity and quality"
         description := "Project may face resource constraints affecting delivery"
         mitigation_strategy := "Resource planning, prioritization, external support"
         risk_score := resourceRisk
         detection_date := now
         status := "identified" }]
  else risks

/-- A concrete commit record used by the witnesses. -/
def sampleCommit : CommitInfo :=
  { hash := "c0ffee"
    author := "Ada"
    author_email := "ada@example.com"
    date := 0
    message := "feat: add login"
    files_changed := 1
    lines_added := 10
    lines_deleted := 2
    is_merge := false
    branch := "main" }

/-- A concrete developer profile used by the witnesses. -/
def sampleProfile : DeveloperProfile :=
  { name := "Ada"
    email := "ada@example.com"
    business_value := BusinessValue.High
    contribution_pattern := "High frequency, consistent contributor" }

/-- A concrete feature exhibiting the dead risk-escalation branch of
`assess_complexity` (base complexity low, no dependencies, risk level
'High'). -/
def highRiskSmallFeature : Feature :=
  { name := "Payments"
    description := "Development work"
    complexity := "medium"
    status := "planned"
    estimated_hours := PRat.ofInt 0
    actual_hours := none
    commit_count := 0
    lines_of_code := 0
    business_value := "High"
    priority := "High"
    risk_level := "High"
    confidence := PRat.ofTenths 5
    start_date := none
    end_date := none
    dependencies := []
    tags := [] }

/-- A concrete feature used by the witnesses (produced shape: medium
business value, low risk, no dependencies). -/
def sampleFeature : Feature :=
  { name := "Search"
    description := "Development work"
    complexity := "low"
    status := "planned"
    estimated_hours := PRat.ofInt 0
    actual_hours := none
    commit_count := 2
    lines_of_code := 40
    business_value := "Medium"
    priority := "Medium"
    risk_level := "Low"
    confidence := PRat.ofTenths 5
    start_date := none
    end_date := none
    dependencies := []
    tags := [] }

/-- The tier order low < medium < high on complexity strings. -/
def complexityRank (s : String) : Nat :=
  if s == "low" then 0 else if s == "medium" then 1 else if s == "high" then 2 else 0

/-- The tier order Low < Medium < High on risk-level strings. -/
def riskRank (s : String) : Nat :=
  if s == "Low" then 0 else if s == "Medium" then 1 else if s == "High" then 2 else 0

/-- A concrete feature-candidate record used by the witnesses. -/
def sampleFeatureData : FeatureData :=
  { commits := []
    lines_changed := 0
    start_date := none
    end_date := none
    tags := [] }

/-- The dict key of a technology entry. -/
def techKey (t : TechnologyInfo) : String × String := (t.name, t.category)

/-- Folding the merge over the entries that share one key, starting from no
entry: this is what the dict accumulation does to a single key. -/
def mergeFoldTech : Option TechnologyInfo → List TechnologyInfo → Option TechnologyInfo
  | o, [] => o
  | none, t :: rest => mergeFoldTech (some t) rest
  | some e, t :: rest => mergeFoldTech (some (mergeTech e t)) rest

/-- The first entry with the given key. -/
def findTech (k : String × String) (l : List TechnologyInfo) : Option TechnologyInfo :=
  l.find? (fun e => techKey e == k)

/-- A concrete technology entry used by the witnesses. -/
def sampleTech : TechnologyInfo :=
  { name := "Python"
    category := "Backend"
    confidence := PRat.ofTenths 8
    evidence := ["Found requirements.txt"]
    version := none }

theorem PRat.ext {a b : PRat} (h1 : a.num = b.num) (h2 : a.den = b.den) : a = b := by
  cases a with
  | mk n d hp =>
    cases b with
    | mk n' d' hp' =>
      simp only at h1 h2
      subst h1; subst h2; rfl

theorem PRat.le_def {a b : PRat} : (a ≤ b) = (a.num * b.den ≤ b.num * a.den) := rfl

theorem PRat.lt_def {a b : PRat} : (a < b) = (a.num * b.den < b.num * a.den) := rfl

theorem PRat.le_refl (a : PRat) : a ≤ a := Int.le_refl _

theorem PRat.le_total (a b : PRat) : a ≤ b ∨ b ≤ a :=
  Int.le_total (a.num * b.den) (b.num * a.den)

theorem PRat.not_lt {a b : PRat} : ¬a < b ↔ b ≤ a := Int.not_lt

theorem PRat.le_trans {a b c : PRat} (h1 : a ≤ b) (h2 : b ≤ c) : a ≤ c := by
  rw [PRat.le_def] at h1 h2 ⊢
  have hb := b.den_pos
  nlinarith [a.den_pos, c.den_pos, mul_le_mul_of_nonneg_right h1 c.den_pos.le,
    mul_le_mul_of_nonneg_right h2 a.den_pos.le]

theorem PRat.left_le_pyMax (a b : PRat) : a ≤ PRat.pyMax a b := by
  unfold PRat.pyMax
  split
  · exact Int.le_of_lt (by assumption)
  · exact PRat.le_refl a

theorem PRat.right_le_pyMax (a b : PRat) : b ≤ PRat.pyMax a b := by
  unfold PRat.pyMax
  split
  · exact PRat.le_refl b
  · exact PRat.not_lt.mp (by assumption)

theorem PRat.pyMax_mem (a b : PRat) : PRat.pyMax a b = a ∨ PRat.pyMax a b = b := by
  unfold PRat.pyMax
  split
  · exact Or.inr rfl
  · exact Or.inl rfl

theorem PRat.roundTenEven_tenths (k : Int) : PRat.roundTenEven (PRat.ofTenths k) = k := by
  unfold PRat.roundTenEven PRat.ofTenths
  simp only
  have hf : (10 * k).fdiv 10 = k := by
    rw [Int.mul_comm]
    exact Int.mul_fdiv_cancel k (by omega)
  rw [hf]
  have : 10 * k - k * 10 = 0 := by ring
  rw [this]
  norm_num

/-- Rounding to one decimal place is idempotent. -/
theorem PRat.round1_idem (q : PRat) : PRat.round1 (PRat.round1 q) = PRat.round1 q := by
  unfold PRat.round1
  exact PRat.ext (PRat.roundTenEven_tenths _) rfl

theorem PRat.roundTenEven_nonneg {q : PRat} (h : 0 ≤ q.num) : 0 ≤ PRat.roundTenEven q := by
  unfold PRat.roundTenEven
  simp only
  have hf : 0 ≤ (10 * q.num).fdiv q.den :=
    Int.fdiv_nonneg (by omega) (Int.le_of_lt q.den_pos)
  split
  · exact hf
  · split
    · omega
    · split <;> omega

theorem PRat.zero_le_iff {x : PRat} : PRat.ofInt 0 ≤ x ↔ 0 ≤ x.num := by
  rw [PRat.le_def]
  unfold PRat.ofInt
  constructor
  · intro h
    simpa using h
  · intro h
    simpa using h

theorem PRat.mul_num (a b : PRat) : (PRat.mul a b).num = a.num * b.num := rfl

theorem PRat.add_num (a b : PRat) : (PRat.add a b).num = a.num * b.den + b.num * a.den := rfl

theorem PRat.round1_num (q : PRat) : (PRat.round1 q).num = PRat.roundTenEven q := rfl

/-- Each commit falls in exactly one classifier bucket, so the five per-class
counts partition the commit list. -/
theorem classify_counts_partition (commits : List CommitInfo) :
    commits.countP (fun c => classifyCommitMessage c.message == CommitClass.feature)
      + commits.countP (fun c => classifyCommitMessage c.message == CommitClass.bugfix)
      + commits.countP (fun c => classifyCommitMessage c.message == CommitClass.refactor)
      + commits.countP (fun c => classifyCommitMessage c.message == CommitClass.docs)
      + commits.countP (fun c => classifyCommitMessage c.message == CommitClass.other)
      = commits.length := by
  induction commits with
  | nil => simp
  | cons c rest ih =>
    simp only [List.countP_cons, List.length_cons]
    cases h : classifyCommitMessage c.message <;> simp [h] <;> omega

/-- C2: the commit classifier tests the lower-cased message against the
feature table first, then bug-fix, then refactor, then documentation, first
match winning, so each commit lands in at most one of the four counters and
the four counters plus the unclassified remainder sum to the total commit
count. -/
theorem c2_classifier_first_match_partition :
    ∀ commits : List CommitInfo,
      ((analyze_commit_patterns commits).feature_commits
          + (analyze_commit_patterns commits).bug_fix_commits
          + (analyze_commit_patterns commits).refactor_commits
          + (analyze_commit_patterns commits).documentation_commits
          + unclassifiedCommits commits
          = (analyze_commit_patterns commits).total_commits)
      ∧ ∀ message : String,
          (classifyCommitMessage message = CommitClass.feature
            ↔ matchesAny FEATURE_PATTERNS message = true)
          ∧ (classifyCommitMessage message = CommitClass.bugfix
            ↔ matchesAny FEATURE_PATTERNS message = false
              ∧ matchesAny BUG_FIX_PATTERNS message = true)
          ∧ (classifyCommitMessage message = CommitClass.refactor
            ↔ matchesAny FEATURE_PATTERNS message = false
              ∧ matchesAny BUG_FIX_PATTERNS message = false
              ∧ matchesAny REFACTOR_PATTERNS message = true)
          ∧ (classifyCommitMessage message = CommitClass.docs
            ↔ matchesAny FEATURE_PATTERNS message = false
              ∧ matchesAny BUG_FIX_PATTERNS message = false
              ∧ matchesAny REFACTOR_PATTERNS message = false
              ∧ matchesAny DOCUMENTATION_PATTERNS message = true) := by
  intro commits
  constructor
  · cases commits with
    | nil => simp [analyze_commit_patterns, unclassifiedCommits]
    | cons c rest =>
      have h := classify_counts_partition (c :: rest)
      simp only [analyze_commit_patterns, List.isEmpty_cons, Bool.false_eq_true,
        if_false, unclassifiedCommits]
      omega
  · intro message
    unfold classifyCommitMessage
    cases hf : matchesAny FEATURE_PATTERNS message <;>
      cases hb : matchesAny BUG_FIX_PATTERNS message <;>
        cases hr : matchesAny REFACTOR_PATTERNS message <;>
          cases hd : matchesAny DOCUMENTATION_PATTERNS message <;>
            simp [hf, hb, hr, hd]

/-- The trend branch taken for a non-empty commit list returns one of the
four documented labels and honours the two insufficient-data guards. -/
theorem trend_branch_facts (commits : List CommitInfo) :
    analyze_commit_frequency_trend commits
        ∈ ["increasing", "decreasing", "stable", "insufficient_data"]
      ∧ (commits.length < 10 →
          analyze_commit_frequency_trend commits = "insufficient_data")
      ∧ ((commits.map (fun c => weekKey c.date)).dedup.length < 3 →
          analyze_commit_frequency_trend commits = "insufficient_data") := by
  unfold analyze_commit_frequency_trend
  refine ⟨?_, ?_, ?_⟩
  · split
    · simp
    · dsimp only
      split
      · simp
      · split
        · simp
        · split <;> simp
  · intro h
    simp [h]
  · intro h
    split
    · rfl
    · dsimp only
      simp [h]

/-- C4 counterexample: on the empty commit list `_analyze_commit_patterns`
short-circuits and fills `commit_frequency_trend` with the literal
"unknown", which is none of the four documented values. -/
theorem c4_empty_trend_counterexample :
    (analyze_commit_patterns []).commit_frequency_trend = "unknown"
      ∧ "unknown" ∉ (["increasing", "decreasing", "stable", "insufficient_data"] :
          List String) := by
  exact ⟨rfl, by decide⟩

/-- C4 (amended): for every non-empty commit list the trend field is one of
'increasing', 'decreasing', 'stable', 'insufficient_data'; fewer than 10
commits, or fewer than 3 distinct commit weeks, yield 'insufficient_data'.
(The empty commit list instead yields the fallback 'unknown'.) -/
theorem c4_trend_values :
    ∀ commits : List CommitInfo, commits ≠ [] →
      (analyze_commit_patterns commits).commit_frequency_trend
          ∈ ["increasing", "decreasing", "stable", "insufficient_data"]
        ∧ (commits.length < 10 →
            (analyze_commit_patterns commits).commit_frequency_trend
              = "insufficient_data")
        ∧ ((commits.map (fun c => weekKey c.date)).dedup.length < 3 →
            (analyze_commit_patterns commits).commit_frequency_trend
              = "insufficient_data") := by
  intro commits hne
  have hfield : (analyze_commit_patterns commits).commit_frequency_trend
      = analyze_commit_frequency_trend commits := by
    cases commits with
    | nil => exact absurd rfl hne
    | cons c rest => rfl
  rw [hfield]
  exact trend_branch_facts commits

theorem c4_trend_values_witness :
    ([sampleCommit] : List CommitInfo) ≠ []
      ∧ ((analyze_commit_patterns [sampleCommit]).commit_frequency_trend
            ∈ ["increasing", "decreasing", "stable", "insufficient_data"]
          ∧ (([sampleCommit] : List CommitInfo).length < 10 →
              (analyze_commit_patterns [sampleCommit]).commit_frequency_trend
                = "insufficient_data")
          ∧ (([sampleCommit].map (fun c => weekKey c.date)).dedup.length < 3 →
              (analyze_commit_patterns [sampleCommit]).commit_frequency_trend
                = "insufficient_data")) :=
  ⟨List.cons_ne_nil sampleCommit [],
    c4_trend_values [sampleCommit] (List.cons_ne_nil sampleCommit [])⟩

/-- The bus-factor loop counts at least one profile and at most the whole
list it walks. -/
theorem busFactorLoop_bounds :
    ∀ (l : List DeveloperProfile) (total acc : Nat), l ≠ [] →
      acc + 1 ≤ busFactorLoop total l acc ∧ busFactorLoop total l acc ≤ acc + l.length := by
  intro l
  induction l with
  | nil => intro total acc h; exact absurd rfl h
  | cons p rest ih =>
    intro total acc _
    simp only [busFactorLoop]
    split
    · simp
    · cases hrest : rest with
      | nil =>
        subst hrest
        simp [busFactorLoop]
      | cons q rest2 =>
        have h := ih total (acc + 1) (by simp [hrest])
        rw [hrest] at h
        simp only [List.length_cons] at h ⊢
        omega

/-- C7: `_calculate_bus_factor` returns 0 on the empty profile list and an
integer between 1 and the team size inclusive on every non-empty profile
list. -/
theorem c7_bus_factor_bounds :
    ∀ profiles : List DeveloperProfile,
      (profiles = [] → calculate_bus_factor profiles = 0)
      ∧ (profiles ≠ [] →
          1 ≤ calculate_bus_factor profiles
          ∧ calculate_bus_factor profiles ≤ profiles.length) := by
  intro profiles
  constructor
  · intro h
    subst h
    rfl
  · intro hne
    have hlen : (List.insertionSort weightGe profiles).length = profiles.length :=
      (List.perm_insertionSort weightGe profiles).length_eq
    have hsne : List.insertionSort weightGe profiles ≠ [] := by
      intro h
      rw [h] at hlen
      cases profiles with
      | nil => exact hne rfl
      | cons p rest => simp at hlen
    have hbounds :=
      busFactorLoop_bounds (List.insertionSort weightGe profiles) profiles.length 0 hsne
    have hfold : calculate_bus_factor profiles
        = busFactorLoop profiles.length (List.insertionSort weightGe profiles) 0 := by
      cases profiles with
      | nil => exact absurd rfl hne
      | cons p rest => rfl
    rw [hfold]
    rw [hlen] at hbounds
    omega

theorem c7_bus_factor_bounds_witness :
    (([] : List DeveloperProfile) = [] → calculate_bus_factor [] = 0)
      ∧ (([sampleProfile] : List DeveloperProfile) ≠ []
          ∧ 1 ≤ calculate_bus_factor [sampleProfile]
          ∧ calculate_bus_factor [sampleProfile] ≤ ([sampleProfile] : List DeveloperProfile).length) := by
  refine ⟨(c7_bus_factor_bounds []).1, List.cons_ne_nil sampleProfile [], ?_⟩
  exact (c7_bus_factor_bounds [sampleProfile]).2 (List.cons_ne_nil sampleProfile [])

/-- Once the weighted-sum accumulator has raised, every later loop iteration
keeps the raised state. -/
theorem foldl_knowledgeConcentrationStep_none :
    ∀ (profiles : List DeveloperProfile) (t : Int),
      (profiles.foldl knowledgeConcentrationStep (none, t)).1 = none := by
  intro profiles
  induction profiles with
  | nil => intro t; rfl
  | cons p rest ih =>
    intro t
    simpa [knowledgeConcentrationStep, Option.bind] using ih _

/-- C1 (code bug): for every non-empty profile list the knowledge
concentration loop adds the string `weight * contribution_pattern` to the
int accumulator and raises a `TypeError`, so `analyze_team_dynamics` raises
instead of returning a `TeamDynamics` with the high/critical contributor
fraction. -/
theorem c1_team_dynamics_type_error :
    ∀ (now : Int) (profiles : List DeveloperProfile) (commits : List CommitInfo),
      profiles ≠ [] →
      calculate_knowledge_concentration profiles = none
      ∧ analyze_team_dynamics now profiles commits = none := by
  intro now profiles commits hne
  have hkc : calculate_knowledge_concentration profiles = none := by
    cases profiles with
    | nil => exact absurd rfl hne
    | cons p rest =>
      unfold calculate_knowledge_concentration
      simp only [List.isEmpty_cons, Bool.false_eq_true, if_false, List.foldl_cons]
      have hstep : knowledgeConcentrationStep (some (PyVal.int 0), 0) p
          = (none, businessValueWeight p.business_value) := by
        simp [knowledgeConcentrationStep, pyMulIntStr, pyAdd, Option.bind]
      rw [hstep, foldl_knowledgeConcentrationStep_none]
      rfl
  refine ⟨hkc, ?_⟩
  unfold analyze_team_dynamics
  rw [hkc]
  rfl

theorem c1_team_dynamics_type_error_witness :
    ([sampleProfile] : List DeveloperProfile) ≠ []
      ∧ calculate_knowledge_concentration [sampleProfile] = none
      ∧ analyze_team_dynamics 0 [sampleProfile] [sampleCommit] = none :=
  ⟨List.cons_ne_nil sampleProfile [],
    c1_team_dynamics_type_error 0 [sampleProfile] [sampleCommit]
      (List.cons_ne_nil sampleProfile [])⟩

/-- C3 (code bug): `assess_complexity` compares `risk_level` against the
lower-case literal 'high' while the risk-level derivation only ever produces
'Low'/'Medium'/'High', so a feature whose risk level is 'High' is not
escalated: with base complexity 'low' the result stays 'low' instead of the
documented 'medium'. -/
theorem c3_high_risk_not_escalated :
    highRiskSmallFeature.risk_level = "High"
      ∧ highRiskSmallFeature.dependencies.length ≤ 3
      ∧ get_complexity_level defaultThresholds highRiskSmallFeature.lines_of_code
          highRiskSmallFeature.commit_count = "low"
      ∧ assess_complexity defaultThresholds highRiskSmallFeature = "low"
      ∧ determine_risk_level
          { commits := []
            lines_changed := 1200
            start_date := none
            end_date := none
            tags := [] } = "High" := by
  refine ⟨rfl, by decide, by decide, by decide, by decide⟩

/-- The scope-creep placeholder never exceeds 0.3. -/
theorem assess_scope_creep_below_threshold (features : List Feature)
    (commits : List CommitInfo) :
    ¬ PRat.ofTenths 6 < assess_scope_creep features commits := by
  unfold assess_scope_creep
  split <;> decide

/-- The resource-constraints placeholder never exceeds 0.4. -/
theorem assess_resource_constraints_below_threshold (commits : List CommitInfo)
    (features : List Feature) :
    ¬ PRat.ofTenths 6 < assess_resource_constraints commits features := by
  unfold assess_resource_constraints
  split <;> decide

/-- C9: the scope-creep score is the constant 0.3 and the resource-constraint
score the constant 0.4 (0.0 on empty inputs), both at most the 0.6 trigger
threshold, so `_identify_business_risks` can only ever emit the Timeline
risk BUS_002. -/
theorem c9_business_risks_only_timeline :
    ∀ (now : Int) (features : List Feature) (commits : List CommitInfo),
      (features ≠ [] → commits ≠ [] →
        assess_scope_creep features commits = PRat.ofTenths 3)
      ∧ (features ≠ [] → commits ≠ [] →
          assess_resource_constraints commits features = PRat.ofTenths 4)
      ∧ ¬ PRat.ofTenths 6 < assess_scope_creep features commits
      ∧ ¬ PRat.ofTenths 6 < assess_resource_constraints commits features
      ∧ ∀ r ∈ identify_business_risks now features commits, r.id = "BUS_002" := by
  intro now features commits
  refine ⟨?_, ?_, assess_scope_creep_below_threshold features commits,
    assess_resource_constraints_below_threshold commits features, ?_⟩
  · intro hf hc
    unfold assess_scope_creep
    rw [if_neg]
    simp [hf, hc]
  · intro hf hc
    unfold assess_resource_constraints
    rw [if_neg]
    simp [hf, hc]
  · intro r hr
    unfold identify_business_risks at hr
    dsimp only at hr
    rw [if_neg (assess_scope_creep_below_threshold features commits)] at hr
    rw [if_neg (assess_resource_constraints_below_threshold commits features)] at hr
    split at hr
    · simp at hr
      rw [hr]
    · simp at hr

theorem c9_business_risks_only_timeline_witness :
    assess_scope_creep [sampleFeature] [sampleCommit] = PRat.ofTenths 3
      ∧ assess_resource_constraints [sampleCommit] [sampleFeature] = PRat.ofTenths 4
      ∧ ¬ PRat.ofTenths 6 < assess_scope_creep [sampleFeature] [sampleCommit]
      ∧ ¬ PRat.ofTenths 6 < assess_resource_constraints [sampleCommit] [sampleFeature]
      ∧ ∀ r ∈ identify_business_risks 0 [sampleFeature] [sampleCommit],
          r.id = "BUS_002" := by
  have h := c9_business_risks_only_timeline 0 [sampleFeature] [sampleCommit]
  exact ⟨h.1 (List.cons_ne_nil sampleFeature []) (List.cons_ne_nil sampleCommit []),
    h.2.1 (List.cons_ne_nil sampleFeature []) (List.cons_ne_nil sampleCommit []),
    h.2.2.1, h.2.2.2.1, h.2.2.2.2⟩

/-- With the default thresholds, the configured base-hours estimate has a
nonnegative numerator whenever the commit count is nonnegative. -/
theorem get_time_estimate_num_nonneg (complexity : String) (commitCount : Int)
    (h : 0 ≤ commitCount) :
    0 ≤ (get_time_estimate defaultThresholds complexity commitCount).num := by
  unfold get_time_estimate
  dsimp only
  apply PRat.roundTenEven_nonneg
  rw [PRat.mul_num, PRat.mul_num]
  split_ifs <;>
    simp only [defaultThresholds, PRat.add_num, PRat.ofInt, PRat.ofTenths] <;>
    nlinarith

/-- C8: with the default configuration, `estimate_development_time` is
deterministic, returns a nonnegative number of hours for every feature with
a nonnegative commit count, and returns a value that is a fixed point of
rounding to one decimal place. -/
theorem c8_estimate_development_time_props :
    ∀ feature : Feature, 0 ≤ feature.commit_count →
      estimate_development_time defaultThresholds feature
          = estimate_development_time defaultThresholds feature
        ∧ PRat.ofInt 0 ≤ estimate_development_time defaultThresholds feature
        ∧ PRat.round1 (estimate_development_time defaultThresholds feature)
            = estimate_development_time defaultThresholds feature := by
  intro f h
  refine ⟨rfl, ?_, ?_⟩
  · rw [PRat.zero_le_iff]
    unfold estimate_development_time
    dsimp only
    apply PRat.roundTenEven_nonneg
    rw [PRat.mul_num]
    apply mul_nonneg (get_time_estimate_num_nonneg f.complexity f.commit_count h)
    split_ifs <;>
      simp only [PRat.mul, PRat.add, PRat.mul_num, PRat.add_num, PRat.ofInt, PRat.ofNat,
        PRat.ofTenths] <;>
      positivity
  · exact PRat.round1_idem _

theorem c8_estimate_development_time_props_witness :
    0 ≤ sampleFeature.commit_count
      ∧ (estimate_development_time defaultThresholds sampleFeature
          = estimate_development_time defaultThresholds sampleFeature
        ∧ PRat.ofInt 0 ≤ estimate_development_time defaultThresholds sampleFeature
        ∧ PRat.round1 (estimate_development_time defaultThresholds sampleFeature)
            = estimate_development_time defaultThresholds sampleFeature) :=
  ⟨by decide, c8_estimate_development_time_props sampleFeature (by decide)⟩

/-- The configured base complexity is always one of the three tiers. -/
theorem get_complexity_level_mem (cfg : ComplexityThresholds) (loc commitCount : Int) :
    get_complexity_level cfg loc commitCount ∈ (["low", "medium", "high"] : List String) := by
  unfold get_complexity_level
  split_ifs <;> simp

/-- The dependency-escalation guard of `assess_complexity` is equivalent to
having more than three dependencies. -/
theorem depsCond_iff (d : List String) :
    (¬d.isEmpty = true ∧ d.length > 3) ↔ d.length > 3 := by
  constructor
  · exact fun h => h.2
  · intro h
    refine ⟨?_, h⟩
    cases d with
    | nil => simp at h
    | cons x xs => simp

/-- C6: `assess_complexity` is monotonic — holding all other fields fixed,
growing the dependency list or raising the risk level inside
Low < Medium < High never decreases the returned complexity tier (for the
title-case risk levels the escalation test against the lower-case 'high'
never fires, so the result is constant in the risk level). -/
theorem c6_assess_complexity_monotonic :
    ∀ (cfg : ComplexityThresholds) (f : Feature) (d1 d2 : List String) (r1 r2 : String),
      d1.length ≤ d2.length →
      r1 ∈ (["Low", "Medium", "High"] : List String) →
      r2 ∈ (["Low", "Medium", "High"] : List String) →
      riskRank r1 ≤ riskRank r2 →
      complexityRank
          (assess_complexity cfg { f with dependencies := d1, risk_level := r1 })
        ≤ complexityRank
            (assess_complexity cfg { f with dependencies := d2, risk_level := r2 }) := by
  intro cfg f d1 d2 r1 r2 hlen hr1 hr2 _
  have e1 : (r1 == "high") = false := by fin_cases hr1 <;> decide
  have e2 : (r2 == "high") = false := by fin_cases hr2 <;> decide
  unfold assess_complexity
  dsimp only
  simp only [e1, e2, Bool.false_eq_true, if_false, depsCond_iff]
  have hb := get_complexity_level_mem cfg f.lines_of_code f.commit_count
  simp only [List.mem_cons, List.not_mem_nil, or_false] at hb
  rcases hb with hb | hb | hb <;>
    rw [hb] <;>
    by_cases h1 : d1.length > 3 <;> by_cases h2 : d2.length > 3 <;>
      first
        | omega
        | simp [h1, h2, complexityRank]

theorem c6_assess_complexity_monotonic_witness :
    ([] : List String).length ≤ (["Backend API", "Database", "UI Components", "Auth"] :
        List String).length
      ∧ "Low" ∈ (["Low", "Medium", "High"] : List String)
      ∧ "High" ∈ (["Low", "Medium", "High"] : List String)
      ∧ riskRank "Low" ≤ riskRank "High"
      ∧ complexityRank
          (assess_complexity defaultThresholds
            { sampleFeature with dependencies := [], risk_level := "Low" })
        ≤ complexityRank
            (assess_complexity defaultThresholds
              { sampleFeature with
                dependencies := ["Backend API", "Database", "UI Components", "Auth"]
                risk_level := "High" }) :=
  ⟨by decide, by decide, by decide, by decide,
    c6_assess_complexity_monotonic defaultThresholds sampleFeature []
      ["Backend API", "Database", "UI Components", "Auth"] "Low" "High"
      (by decide) (by decide) (by decide) (by decide)⟩

/-- `assess_complexity` only ever returns 'low', 'medium' or 'high'. -/
theorem assess_complexity_mem (cfg : ComplexityThresholds) (feature : Feature) :
    assess_complexity cfg feature ∈ (["low", "medium", "high"] : List String) := by
  unfold assess_complexity
  dsimp only
  have hb := get_complexity_level_mem cfg feature.lines_of_code feature.commit_count
  simp only [List.mem_cons, List.not_mem_nil, or_false] at hb
  rcases hb with hb | hb | hb <;> rw [hb] <;> split_ifs <;> simp_all

/-- The complexity a built feature carries is the `assess_complexity`
output, hence one of the three table keys. -/
theorem create_feature_object_complexity_mem (cfg : ComplexityThresholds)
    (featureName : String) (d : FeatureData) :
    (create_feature_object cfg featureName d).complexity
      ∈ (["low", "medium", "high"] : List String) := by
  unfold create_feature_object
  dsimp only
  exact assess_complexity_mem cfg _

/-- The complexity-score dict lookup succeeds on the three tier strings. -/
theorem complexity_scores_isSome {s : String}
    (h : s ∈ (["low", "medium", "high"] : List String)) :
    (complexity_scores s).isSome := by
  fin_cases h <;> decide

/-- A loop over raising computations succeeds when no element raises. -/
theorem seqOption_isSome {α : Type} :
    ∀ {l : List (Option α)}, (∀ o ∈ l, o.isSome) → (seqOption l).isSome := by
  intro l
  induction l with
  | nil => intro _; rfl
  | cons o rest ih =>
    intro h
    have ho := h o (List.mem_cons_self o rest)
    obtain ⟨x, hx⟩ := Option.isSome_iff_exists.mp ho
    subst hx
    have hrest := ih (fun o ho => h o (List.mem_cons_of_mem _ ho))
    obtain ⟨xs, hxs⟩ := Option.isSome_iff_exists.mp hrest
    simp [seqOption, hxs]

/-- A feature group builds successfully when every bucketed feature's
complexity is a valid table key. -/
theorem buildFeatureGroup_isSome (features : List Feature) (gname : String)
    (h : ∀ f ∈ features.filter (fun f => determine_feature_group f == gname),
      (complexity_scores f.complexity).isSome) :
    (buildFeatureGroup features gname).isSome := by
  unfold buildFeatureGroup
  dsimp only
  have hseq : (seqOption ((features.filter
      (fun f => determine_feature_group f == gname)).map
        (fun f => complexity_scores f.complexity))).isSome := by
    apply seqOption_isSome
    intro o ho
    obtain ⟨f, hf, rfl⟩ := List.mem_map.mp ho
    exact h f hf
  obtain ⟨x, hx⟩ := Option.isSome_iff_exists.mp hseq
  rw [hx]
  rfl

/-- `group_features` succeeds when every feature's complexity is a valid
table key. -/
theorem group_features_isSome (features : List Feature)
    (h : ∀ f ∈ features, (complexity_scores f.complexity).isSome) :
    (group_features features).isSome := by
  unfold group_features
  dsimp only
  have hseq : (seqOption ((firstDedup (features.map determine_feature_group)).map
      (buildFeatureGroup features))).isSome := by
    apply seqOption_isSome
    intro o ho
    obtain ⟨g, hg, rfl⟩ := List.mem_map.mp ho
    apply buildFeatureGroup_isSome
    intro f hf
    exact h f (List.mem_of_mem_filter hf)
  obtain ⟨x, hx⟩ := Option.isSome_iff_exists.mp hseq
  rw [hx]
  rfl

/-- C10: every feature produced by `identify_features` carries a complexity
among 'low', 'medium', 'high' (the only values `assess_complexity` can
return), so the complexity-score lookup inside `group_features` never fails
on such feature lists. -/
theorem c10_identify_features_complexity_safe :
    ∀ (cfg : ComplexityThresholds) (candidates : List (String × FeatureData)),
      (∀ f, f ∈ identify_features cfg candidates →
        f.complexity ∈ (["low", "medium", "high"] : List String)
        ∧ (complexity_scores f.complexity).isSome)
      ∧ (group_features (identify_features cfg candidates)).isSome := by
  intro cfg candidates
  have hmem : ∀ f, f ∈ identify_features cfg candidates →
      f.complexity ∈ (["low", "medium", "high"] : List String) := by
    intro f hf
    unfold identify_features at hf
    rw [(List.perm_insertionSort hoursGe _).mem_iff] at hf
    obtain ⟨c, _, rfl⟩ := List.mem_map.mp hf
    exact create_feature_object_complexity_mem cfg c.1 c.2
  constructor
  · intro f hf
    exact ⟨hmem f hf, complexity_scores_isSome (hmem f hf)⟩
  · exact group_features_isSome _ (fun f hf => complexity_scores_isSome (hmem f hf))

theorem c10_identify_features_complexity_safe_witness :
    (create_feature_object defaultThresholds "Auth" sampleFeatureData
        ∈ identify_features defaultThresholds [("Auth", sampleFeatureData)])
      ∧ (create_feature_object defaultThresholds "Auth" sampleFeatureData).complexity
          ∈ (["low", "medium", "high"] : List String)
      ∧ (complexity_scores
          (create_feature_object defaultThresholds "Auth" sampleFeatureData).complexity).isSome
      ∧ (group_features
          (identify_features defaultThresholds [("Auth", sampleFeatureData)])).isSome := by
  have hmem : create_feature_object defaultThresholds "Auth" sampleFeatureData
      ∈ identify_features defaultThresholds [("Auth", sampleFeatureData)] :=
    List.Mem.head []
  have h := c10_identify_features_complexity_safe defaultThresholds
    [("Auth", sampleFeatureData)]
  exact ⟨hmem, (h.1 _ hmem).1, (h.1 _ hmem).2, h.2⟩

theorem techKey_mergeTech (e t : TechnologyInfo) : techKey (mergeTech e t) = techKey e := rfl

theorem keyMatch_iff (e t : TechnologyInfo) :
    (e.name == t.name && e.category == t.category) = true ↔ techKey e = techKey t := by
  simp [techKey, Prod.ext_iff]

theorem findTech_updateTech_ne (acc : List TechnologyInfo) (t : TechnologyInfo)
    (k : String × String) (h : techKey t ≠ k) :
    findTech k (updateTech acc t) = findTech k acc := by
  induction acc with
  | nil =>
    have hk : (techKey t == k) = false := by simp [h]
    simp only [updateTech, findTech, List.find?_nil, List.find?_cons]
    rw [hk]
  | cons e rest ih =>
    simp only [updateTech]
    split
    · rename_i hm
      have he : techKey e = techKey t := (keyMatch_iff e t).mp hm
      have hek : (techKey (mergeTech e t) == k) = false := by
        simp [techKey_mergeTech, he, h]
      have hek2 : (techKey e == k) = false := by simp [he, h]
      simp only [findTech, List.find?_cons]
      rw [hek, hek2]
    · cases hek : (techKey e == k) with
      | true =>
        simp only [findTech, List.find?_cons]
        rw [hek]
      | false =>
        simp only [findTech, List.find?_cons] at ih ⊢
        rw [hek]
        exact ih

theorem findTech_updateTech_eq (acc : List TechnologyInfo) (t : TechnologyInfo)
    (k : String × String) (h : techKey t = k) :
    findTech k (updateTech acc t)
      = some (match findTech k acc with
          | none => t
          | some e => mergeTech e t) := by
  induction acc with
  | nil =>
    have hk : (techKey t == k) = true := by simp [h]
    simp only [updateTech, findTech, List.find?_nil, List.find?_cons]
    rw [hk]
  | cons e rest ih =>
    simp only [updateTech]
    split
    · rename_i hm
      have he : techKey e = techKey t := (keyMatch_iff e t).mp hm
      have hek : (techKey (mergeTech e t) == k) = true := by
        simp [techKey_mergeTech, he, h]
      have hek2 : (techKey e == k) = true := by simp [he, h]
      simp only [findTech, List.find?_cons]
      rw [hek, hek2]
    · rename_i hm
      have hek : (techKey e == k) = false := by
        rw [← h]
        simp only [beq_eq_false_iff_ne, ne_eq]
        intro hh
        exact hm ((keyMatch_iff e t).mpr hh)
      simp only [findTech, List.find?_cons] at ih ⊢
      rw [hek]
      exact ih

theorem findTech_foldl (l : List TechnologyInfo) :
    ∀ (acc : List TechnologyInfo) (k : String × String),
      findTech k (l.foldl updateTech acc)
        = mergeFoldTech (findTech k acc) (l.filter (fun t => techKey t == k)) := by
  induction l with
  | nil =>
    intro acc k
    cases hacc : findTech k acc <;> simp [mergeFoldTech, hacc]
  | cons t rest ih =>
    intro acc k
    simp only [List.foldl_cons, List.filter_cons]
    by_cases h : techKey t = k
    · rw [ih, findTech_updateTech_eq acc t k h]
      rw [if_pos (by simp [h])]
      cases hacc : findTech k acc <;> simp [mergeFoldTech]
    · rw [ih, findTech_updateTech_ne acc t k h]
      rw [if_neg (by simp [h])]

theorem mergeFoldTech_props :
    ∀ (m : List TechnologyInfo) (e : TechnologyInfo),
      ∃ e', mergeFoldTech (some e) m = some e'
        ∧ e'.name = e.name ∧ e'.category = e.category
        ∧ e'.evidence = e.evidence ++ (m.map (fun t => t.evidence)).join
        ∧ (e'.confidence = e.confidence ∨ e'.confidence ∈ m.map (fun t => t.confidence))
        ∧ e.confidence ≤ e'.confidence
        ∧ ∀ c ∈ m.map (fun t => t.confidence), c ≤ e'.confidence := by
  intro m
  induction m with
  | nil =>
    intro e
    exact ⟨e, rfl, rfl, rfl, by simp, Or.inl rfl, PRat.le_refl e.confidence, by simp⟩
  | cons t rest ih =>
    intro e
    obtain ⟨e', h1, h2, h3, h4, h5, h6, h7⟩ := ih (mergeTech e t)
    refine ⟨e', h1, h2, h3, ?_, ?_, ?_, ?_⟩
    · rw [h4]
      simp [mergeTech, List.append_assoc]
    · rcases h5 with h5 | h5
      · rcases PRat.pyMax_mem e.confidence t.confidence with hm | hm
        · exact Or.inl (by rw [h5]; exact hm)
        · refine Or.inr ?_
          simp only [List.map_cons, List.mem_cons]
          exact Or.inl (by rw [h5]; exact hm)
      · refine Or.inr ?_
        simp only [List.map_cons, List.mem_cons]
        exact Or.inr h5
    · exact PRat.le_trans (PRat.left_le_pyMax e.confidence t.confidence) h6
    · intro c hc
      simp only [List.map_cons, List.mem_cons] at hc
      rcases hc with rfl | hc
      · exact PRat.le_trans (PRat.right_le_pyMax e.confidence t.confidence) h6
      · exact h7 c hc

theorem updateTech_keys_sub :
    ∀ (acc : List TechnologyInfo) (t : TechnologyInfo) (k : String × String),
      k ∈ (updateTech acc t).map techKey → k ∈ acc.map techKey ∨ k = techKey t := by
  intro acc t
  induction acc with
  | nil =>
    intro k hk
    simp only [updateTech, List.map_cons, List.map_nil, List.mem_singleton] at hk
    exact Or.inr hk
  | cons e rest ih =>
    intro k hk
    simp only [updateTech] at hk
    split at hk
    · simp only [List.map_cons, List.mem_cons, techKey_mergeTech] at hk
      rcases hk with hk | hk
      · exact Or.inl (by simp [hk])
      · exact Or.inl (by simp [hk])
    · simp only [List.map_cons, List.mem_cons] at hk
      rcases hk with hk | hk
      · exact Or.inl (by simp [hk])
      · rcases ih k hk with h | h
        · exact Or.inl (by simp [h])
        · exact Or.inr h

theorem updateTech_keys_nodup :
    ∀ (acc : List TechnologyInfo) (t : TechnologyInfo),
      (acc.map techKey).Nodup → ((updateTech acc t).map techKey).Nodup := by
  intro acc t
  induction acc with
  | nil => intro _; simp [updateTech]
  | cons e rest ih =>
    intro hnd
    simp only [List.map_cons, List.nodup_cons] at hnd
    obtain ⟨hnotin, hnd⟩ := hnd
    simp only [updateTech]
    split
    · simp only [List.map_cons, List.nodup_cons, techKey_mergeTech]
      exact ⟨hnotin, hnd⟩
    · rename_i hm
      have hket : techKey e ≠ techKey t := fun hh => hm ((keyMatch_iff e t).mpr hh)
      simp only [List.map_cons, List.nodup_cons]
      refine ⟨?_, ih hnd⟩
      intro hin
      rcases updateTech_keys_sub rest t _ hin with h | h
      · exact hnotin h
      · exact hket h

theorem dedup_keys_nodup (techList : List TechnologyInfo) :
    ((deduplicate_technologies techList).map techKey).Nodup := by
  unfold deduplicate_technologies
  have main : ∀ acc, (List.map techKey acc).Nodup →
      ((techList.foldl updateTech acc).map techKey).Nodup := by
    induction techList with
    | nil => intro acc h; exact h
    | cons t rest ih => intro acc h; exact ih _ (updateTech_keys_nodup acc t h)
  exact main [] (by simp)

theorem findTech_of_mem :
    ∀ (d : List TechnologyInfo), (d.map techKey).Nodup →
      ∀ e ∈ d, findTech (techKey e) d = some e := by
  intro d
  induction d with
  | nil => intro _ e he; simp at he
  | cons x rest ih =>
    intro hnd e he
    simp only [List.map_cons, List.nodup_cons] at hnd
    rcases List.mem_cons.mp he with rfl | he'
    · simp only [findTech]
      rw [List.find?_cons_of_pos _ (by simp)]
    · have hkey : techKey e ∈ rest.map techKey := List.mem_map_of_mem techKey he'
      have hne : (techKey x == techKey e) = false := by
        simp only [beq_eq_false_iff_ne, ne_eq]
        intro hh
        exact hnd.1 (hh ▸ hkey)
      simp only [findTech]
      rw [List.find?_cons_of_neg _ (by simpa using hne)]
      exact ih hnd.2 e he'

/-- Every entry of the deduplicated list is exactly the merge of the input
entries sharing its key: its evidence is their concatenated evidence and its
confidence is the maximum of their confidences. -/
theorem dedup_entry_characterization (techList : List TechnologyInfo)
    (e : TechnologyInfo) (he : e ∈ deduplicate_technologies techList) :
    techList.filter (fun t => techKey t == techKey e) ≠ []
    ∧ e.evidence = ((techList.filter (fun t => techKey t == techKey e)).map
        (fun t => t.evidence)).join
    ∧ e.confidence ∈ (techList.filter (fun t => techKey t == techKey e)).map
        (fun t => t.confidence)
    ∧ ∀ c ∈ (techList.filter (fun t => techKey t == techKey e)).map
        (fun t => t.confidence), c ≤ e.confidence := by
  have hfind : findTech (techKey e) (deduplicate_technologies techList) = some e :=
    findTech_of_mem _ (dedup_keys_nodup techList) e he
  have hfold := findTech_foldl techList [] (techKey e)
  unfold deduplicate_technologies at hfind
  rw [hfold] at hfind
  cases hm : techList.filter (fun t => techKey t == techKey e) with
  | nil =>
    rw [hm] at hfind
    simp [findTech, mergeFoldTech] at hfind
  | cons t0 m =>
    rw [hm] at hfind
    obtain ⟨e', h1, hname, hcat, hevid, hconfmem, hle, hub⟩ := mergeFoldTech_props m t0
    have hstep : mergeFoldTech (findTech (techKey e) []) (t0 :: m)
        = mergeFoldTech (some t0) m := rfl
    rw [hstep, h1] at hfind
    have hee : e' = e := by injection hfind
    subst hee
    refine ⟨by simp, ?_, ?_, ?_⟩
    · rw [hevid]
      simp
    · simp only [List.map_cons, List.mem_cons]
      rcases hconfmem with h | h
      · exact Or.inl h
      · exact Or.inr h
    · intro c hc
      simp only [List.map_cons, List.mem_cons] at hc
      rcases hc with rfl | hc
      · exact hle
      · exact hub c hc

/-- C5: after `_deduplicate_technologies` no two entries share
(name, category); a merged entry's evidence is the order-preserving
concatenation of the matching inputs' evidence lists and its confidence is
the maximum (a member of and an upper bound for the matching inputs'
confidences); and `_identify_technology_stack` returns a list sorted by
descending confidence. -/
theorem c5_technology_dedup_invariants :
    ∀ techList : List TechnologyInfo,
      List.Pairwise (fun a b => ¬(a.name = b.name ∧ a.category = b.category))
        (deduplicate_technologies techList)
      ∧ (∀ e, e ∈ deduplicate_technologies techList →
          e.evidence = ((techList.filter
              (fun t => t.name == e.name && t.category == e.category)).map
                (fun t => t.evidence)).join
          ∧ e.confidence ∈ (techList.filter
              (fun t => t.name == e.name && t.category == e.category)).map
                (fun t => t.confidence)
          ∧ ∀ c ∈ (techList.filter
              (fun t => t.name == e.name && t.category == e.category)).map
                (fun t => t.confidence), c ≤ e.confidence)
      ∧ ∀ configTech sourceTech buildTech : List TechnologyInfo,
          List.Sorted confGe (identify_technology_stack configTech sourceTech buildTech) := by
  intro techList
  refine ⟨?_, ?_, ?_⟩
  · have hnd := dedup_keys_nodup techList
    have hpw := (List.pairwise_map (R := (· ≠ ·)) (f := techKey)).mp hnd
    exact hpw.imp (fun {a b} hne hab => hne (by simp [techKey, hab.1, hab.2]))
  · intro e he
    have hchar := dedup_entry_characterization techList e he
    have hpred : (fun t : TechnologyInfo => t.name == e.name && t.category == e.category)
        = (fun t => techKey t == techKey e) := rfl
    rw [hpred]
    exact ⟨hchar.2.1, hchar.2.2.1, hchar.2.2.2⟩
  · intro configTech sourceTech buildTech
    exact List.sorted_insertionSort confGe _

theorem c5_technology_dedup_invariants_witness :
    (sampleTech ∈ deduplicate_technologies [sampleTech])
      ∧ (sampleTech.evidence = (([sampleTech].filter
          (fun t => t.name == sampleTech.name && t.category == sampleTech.category)).map
            (fun t => t.evidence)).join
        ∧ sampleTech.confidence ∈ ([sampleTech].filter
            (fun t => t.name == sampleTech.name && t.category == sampleTech.category)).map
              (fun t => t.confidence)
        ∧ ∀ c ∈ ([sampleTech].filter
            (fun t => t.name == sampleTech.name && t.category == sampleTech.category)).map
              (fun t => t.confidence), c ≤ sampleTech.confidence)
      ∧ List.Sorted confGe (identify_technology_stack [sampleTech] [] []) := by
  have hmem : sampleTech ∈ deduplicate_technologies [sampleTech] := List.Mem.head []
  have h := c5_technology_dedup_invariants [sampleTech]
  exact ⟨hmem, h.2.1 sampleTech hmem, h.2.2 [sampleTech] [] []⟩
